import Mathlib

/-!
Verification development for the claude_usage_dashboard repository
(src/collector.py and src/app.py).

Instants (Python naive local `datetime` values) are embedded as rationals:
the number of seconds since a fixed local-midnight-aligned epoch.  Naive
`datetime` arithmetic in Python is uniform (every day is exactly 86400
seconds), so this embedding is exact for comparisons, `timedelta`
arithmetic and `replace(hour=0, minute=0, second=0, microsecond=0)`
(which becomes truncation to a multiple of 86400).  The local-timezone
conversion performed by `datetime.fromtimestamp` / `astimezone` is
embedded as addition of a fixed offset `off` (seconds of local time
ahead of UTC), carried as an explicit parameter.
-/

namespace UsageDash

/-- Raw timestamp value of a transcript record, as found in the JSON
(`obj.get("timestamp") or obj.get("createdAt")` in collector.py).
`missing` is a record with no timestamp field; `num x` is an epoch
numeric value (int or float, embedded as a rational); `iso p` abstracts
an ISO-8601 string by the result of
`datetime.fromisoformat(s.replace("Z", "+00:00")).astimezone().replace(tzinfo=None)`:
`some t` is the resulting local naive instant, `none` means the string
is malformed and `fromisoformat` raises `ValueError`. -/
inductive RawTs where
  | missing : RawTs
  | num : ℚ → RawTs
  | iso : Option ℚ → RawTs
deriving DecidableEq

/-- A normalized usage record, as built by `parse_all_transcripts`
(collector.py lines 55-62): raw timestamp plus the four token counts and
the model string. -/
structure URecord where
  ts : RawTs
  input : ℕ
  output : ℕ
  cache_create : ℕ
  cache_read : ℕ
  model : String
deriving DecidableEq

/-- Embedding of `parse_ts` (collector.py lines 70-82): `None` stays
`None`; a numeric value strictly greater than 1e12 is epoch
milliseconds (divided by 1000), otherwise epoch seconds, then converted
to a local naive instant by `datetime.fromtimestamp` (embedded as adding
the local offset `off`); an ISO string yields its parse result (a local
naive instant, or `none` on `ValueError`). -/
def parse_ts (off : ℚ) : RawTs → Option ℚ
  | RawTs.missing => none
  | RawTs.num x => some ((if 1000000000000 < x then x / 1000 else x) + off)
  | RawTs.iso p => p

/-- One window bucket of `compute_local_summary` (collector.py lines
115-119): four token counters and a cost accumulator. -/
structure WindowBucket where
  input_tokens : ℕ
  output_tokens : ℕ
  cache_creation_tokens : ℕ
  cache_read_tokens : ℕ
  cost : ℚ
deriving DecidableEq

/-- The zero-initialized bucket (collector.py lines 116-118). -/
def emptyBucket : WindowBucket :=
  { input_tokens := 0, output_tokens := 0, cache_creation_tokens := 0,
    cache_read_tokens := 0, cost := 0 }

/-- Display-profile cost of one record (collector.py line 131):
`(inp * 15 + out * 75 + cc * 18.75 + cr * 1.875) / 1_000_000`. -/
def recCost (r : URecord) : ℚ :=
  ((r.input : ℚ) * 15 + (r.output : ℚ) * 75 + (r.cache_create : ℚ) * (75 / 4)
    + (r.cache_read : ℚ) * (15 / 8)) / 1000000

/-- Adding one record's counts and cost to a bucket (collector.py lines
136-140 and the analogous daily/weekly blocks). -/
def WindowBucket.addRec (b : WindowBucket) (r : URecord) : WindowBucket :=
  { input_tokens := b.input_tokens + r.input,
    output_tokens := b.output_tokens + r.output,
    cache_creation_tokens := b.cache_creation_tokens + r.cache_create,
    cache_read_tokens := b.cache_read_tokens + r.cache_read,
    cost := b.cost + recCost r }

/-- Session window start: `now - timedelta(hours=5)` (collector.py line 111). -/
def sessionStart (now : ℚ) : ℚ := now - 18000

/-- Daily window start: `now.replace(hour=0, minute=0, second=0,
microsecond=0)` (collector.py line 112), i.e. truncation of the local
naive instant to the start of its calendar day. -/
def dayStart (now : ℚ) : ℚ := 86400 * ((⌊now / 86400⌋ : ℤ) : ℚ)

/-- Weekly window start: `now - timedelta(days=7)` (collector.py line 113). -/
def weekStart (now : ℚ) : ℚ := now - 604800

/-- The window membership test used by every bucket guard:
`dt >= window_start` (collector.py lines 134, 145, 152). -/
def inWindow (start dt : ℚ) : Bool := decide (start ≤ dt)

/-- The running-minimum update for `session_oldest` (collector.py lines
141-142): `if session_oldest is None or dt < session_oldest`. -/
def ominStep : Option ℚ → ℚ → Option ℚ
  | none, dt => some dt
  | some o, dt => some (if dt < o then dt else o)

/-- The running-maximum update for `session_newest` (collector.py lines
143-144): `if session_newest is None or dt > session_newest`. -/
def omaxStep : Option ℚ → ℚ → Option ℚ
  | none, dt => some dt
  | some o, dt => some (if o < dt then dt else o)

/-- Loop state of `compute_local_summary`: the three buckets plus the
session-window oldest/newest trackers. -/
structure AggState where
  session : WindowBucket
  daily : WindowBucket
  weekly : WindowBucket
  session_oldest : Option ℚ
  session_newest : Option ℚ
deriving DecidableEq

/-- Initial loop state (collector.py lines 115-122). -/
def initState : AggState :=
  { session := emptyBucket, daily := emptyBucket, weekly := emptyBucket,
    session_oldest := none, session_newest := none }

/-- One iteration of the record loop of `compute_local_summary`
(collector.py lines 124-158): parse the timestamp; on failure skip all
windows; otherwise add the record to each window whose start it is at
or after, and update the session oldest/newest trackers. -/
def step (off now : ℚ) (s : AggState) (r : URecord) : AggState :=
  match parse_ts off r.ts with
  | none => s
  | some dt =>
    { session := if inWindow (sessionStart now) dt then s.session.addRec r else s.session,
      daily := if inWindow (dayStart now) dt then s.daily.addRec r else s.daily,
      weekly := if inWindow (weekStart now) dt then s.weekly.addRec r else s.weekly,
      session_oldest := if inWindow (sessionStart now) dt
        then ominStep s.session_oldest dt else s.session_oldest,
      session_newest := if inWindow (sessionStart now) dt
        then omaxStep s.session_newest dt else s.session_newest }

/-- The `while reset <= now: reset += timedelta(days=7)` loop of
`get_weekly_reset` (collector.py lines 99-102). -/
def advanceReset (now reset : ℚ) : ℚ :=
  if h : reset ≤ now then advanceReset now (reset + 604800) else reset
termination_by (⌊(now - reset) / 604800⌋ + 1).toNat
decreasing_by
  have h2 : (now - (reset + 604800)) / 604800 = (now - reset) / 604800 - 1 := by
    ring
  have h3 : ⌊(now - (reset + 604800)) / 604800⌋ = ⌊(now - reset) / 604800⌋ - 1 := by
    rw [h2]
    simp
  have h5 : (0 : ℚ) ≤ (now - reset) / 604800 :=
    div_nonneg (sub_nonneg.mpr h) (by norm_num)
  have h6 : 0 ≤ ⌊(now - reset) / 604800⌋ := Int.floor_nonneg.mpr h5
  simp only [h3]
  omega

/-- Embedding of `get_weekly_reset` (collector.py lines 85-104).  The
config-file read and ISO parse of `firstStartTime` /
`claudeCodeFirstTokenDate` are abstracted into the `origin` argument:
`none` when the file is missing, the field absent or falsy, or any
exception occurs; `some O` when it parses to local naive instant `O`.
With an origin, the reset is the origin advanced by 7-day steps until it
strictly exceeds `now`. -/
def get_weekly_reset (origin : Option ℚ) (now : ℚ) : Option ℚ :=
  origin.map (advanceReset now)

/-- The result shape of `compute_local_summary` (collector.py lines
160-174): three buckets plus the reset/oldest/newest fields. -/
structure Summary where
  session : WindowBucket
  daily : WindowBucket
  weekly : WindowBucket
  session_resets_at : Option ℚ
  session_oldest : Option ℚ
  session_newest : Option ℚ
  weekly_resets_at : Option ℚ
deriving DecidableEq

/-- Embedding of `compute_local_summary` (collector.py lines 107-174).
`now` (taken from `datetime.now()` in the source) and the weekly-reset
origin (read from the config file by `get_weekly_reset`) are explicit
arguments; `off` is the ambient local-timezone offset used by
`parse_ts`.  The record loop is a left fold of `step`; afterwards
`session_resets_at` is `session_oldest + 5h` when a session-window
record exists (`if session_oldest:` — datetimes are always truthy, so
this is a `None` test), else `None`, and `session_newest` is only
reported when `session_oldest` is set. -/
def compute_local_summary (off : ℚ) (origin : Option ℚ) (records : List URecord)
    (now : ℚ) : Summary :=
  let st := records.foldl (step off now) initState
  { session := st.session, daily := st.daily, weekly := st.weekly,
    session_resets_at := match st.session_oldest with
      | some o => some (o + 18000)
      | none => none,
    session_oldest := st.session_oldest,
    session_newest := match st.session_oldest with
      | some _ => st.session_newest
      | none => none,
    weekly_resets_at := get_weekly_reset origin now }

/-- Embedding of `effective_cost` (app.py lines 272-279): the
rate-limit-estimate cost profile, weighting input at 15, output at 75,
cache-write at 18.75 and cache-read at 0.1875 per million tokens. -/
def effective_cost (b : WindowBucket) : ℚ :=
  ((b.input_tokens : ℚ) * 15 + (b.output_tokens : ℚ) * 75
    + (b.cache_creation_tokens : ℚ) * (75 / 4)
    + (b.cache_read_tokens : ℚ) * (3 / 16)) / 1000000

/-- Doubling the input token count of a bucket (claim C2's experiment). -/
def doubleInput (b : WindowBucket) : WindowBucket :=
  { b with input_tokens := 2 * b.input_tokens }

/-- Doubling the cache-read token count of a bucket (claim C2's experiment). -/
def doubleCacheRead (b : WindowBucket) : WindowBucket :=
  { b with cache_read_tokens := 2 * b.cache_read_tokens }

/-- The three remote buckets returned by `collect_from_admin_api`
(collector.py lines 217-228). -/
structure RemoteBuckets where
  session : WindowBucket
  daily : WindowBucket
  weekly : WindowBucket
deriving DecidableEq

/-- The persisted summary built by `collect` (collector.py lines 261-272). -/
structure Snapshot where
  timestamp : ℚ
  source : String
  session : WindowBucket
  daily : WindowBucket
  weekly : WindowBucket
  session_resets_at : Option ℚ
  session_oldest : Option ℚ
  session_newest : Option ℚ
  weekly_resets_at : Option ℚ
  config_cost : ℚ
deriving DecidableEq

/-- Embedding of one collection pass, `collect` (collector.py lines
238-272).  The Admin API call is abstracted as `remote`: `Except.ok`
when `collect_from_admin_api` returns buckets, `Except.error` when it
raises any exception.  The API is attempted only when the key is a
non-empty string (`if ADMIN_API_KEY:`); on error the pass falls back to
`compute_local_summary` over the `records` parsed from the local
transcript logs (the result of `parse_all_transcripts`), and the
snapshot is tagged with the source that actually supplied the data.
In the admin path the `.get(...)` lookups on the bucket dict return
`None` for the reset/oldest/newest fields. -/
def collect (off : ℚ) (apiKey : String) (remote : Except String RemoteBuckets)
    (records : List URecord) (now : ℚ) (origin : Option ℚ) (cfgCost : ℚ) : Snapshot :=
  let rb : Option RemoteBuckets := if apiKey = "" then none else remote.toOption
  match rb with
  | some b =>
    { timestamp := now, source := "admin_api",
      session := b.session, daily := b.daily, weekly := b.weekly,
      session_resets_at := none, session_oldest := none, session_newest := none,
      weekly_resets_at := none, config_cost := cfgCost }
  | none =>
    let b := compute_local_summary off origin records now
    { timestamp := now, source := "local",
      session := b.session, daily := b.daily, weekly := b.weekly,
      session_resets_at := b.session_resets_at, session_oldest := b.session_oldest,
      session_newest := b.session_newest, weekly_resets_at := b.weekly_resets_at,
      config_cost := cfgCost }

/-- Total token count of one record as summed by `compute_usage_stats`
(app.py line 106). -/
def recTokens (r : URecord) : ℕ := r.input + r.output + r.cache_read + r.cache_create

/-- Result shape of `compute_usage_stats` (app.py lines 131-138). -/
structure UsageStats where
  session_tokens : ℕ
  session_calls : ℕ
  week_tokens : ℕ
  week_calls : ℕ
  total_tokens : ℕ
  total_calls : ℕ
deriving DecidableEq

/-- Day of week of an instant: `wd0` is the weekday of the model epoch
(day 0), so `now.weekday()` is `(floor(now / 86400) + wd0) mod 7`. -/
def weekdayOf (wd0 : ℕ) (now : ℚ) : ℤ := (⌊now / 86400⌋ + (wd0 : ℤ)) % 7

/-- Calendar-week start used by `compute_usage_stats` (app.py lines
95-96): `(now - timedelta(days=now.weekday()))` with the time fields
zeroed, i.e. the most recent local Monday midnight. -/
def weekStartCW (wd0 : ℕ) (now : ℚ) : ℚ :=
  dayStart now - 86400 * ((weekdayOf wd0 now : ℤ) : ℚ)

/-- One iteration of the record loop of `compute_usage_stats` (app.py
lines 105-129): every record is added to the lifetime totals first;
then, only if its timestamp resolves (the inline parse is the same
logic as `parse_ts`), it is added to the session and calendar-week
counters whose window it falls in. -/
def statStep (off fiveAgo wkStart : ℚ) (s : UsageStats) (r : URecord) : UsageStats :=
  let t := recTokens r
  let s1 : UsageStats :=
    { s with total_tokens := s.total_tokens + t, total_calls := s.total_calls + 1 }
  match parse_ts off r.ts with
  | none => s1
  | some dt =>
    let s2 : UsageStats := if inWindow fiveAgo dt
      then { s1 with session_tokens := s1.session_tokens + t,
                     session_calls := s1.session_calls + 1 }
      else s1
    if inWindow wkStart dt
      then { s2 with week_tokens := s2.week_tokens + t,
                     week_calls := s2.week_calls + 1 }
      else s2

/-- Embedding of `compute_usage_stats` (app.py lines 91-138). -/
def compute_usage_stats (off : ℚ) (wd0 : ℕ) (records : List URecord)
    (now : ℚ) : UsageStats :=
  records.foldl (statStep off (now - 18000) (weekStartCW wd0 now))
    { session_tokens := 0, session_calls := 0, week_tokens := 0, week_calls := 0,
      total_tokens := 0, total_calls := 0 }

/-- The staleness annotation a reader attaches to a snapshot
(`_stale`, `_age_minutes`). -/
structure StaleInfo where
  stale : Option Bool
  age_minutes : Option ℤ
deriving DecidableEq

/-- Python `int()` truncation toward zero of a rational. -/
def pyTruncDiv (q : ℚ) : ℤ := q.num / (q.den : ℤ)

/-- Embedding of the staleness computation of `read_collector_summary`
(app.py lines 240-251).  `tsField` abstracts `data.get("timestamp", "")`
followed by the ISO parse: `none` when the field is missing or falsy
(no annotation is attached at all); `some none` when the parse raises
(age -1, stale); `some (some t)` when it parses to instant `t`.  With a
parsed timestamp, `age = now - t` and the snapshot is stale exactly when
`age.total_seconds() > 900`. -/
def read_collector_summary_staleness (now : ℚ) (tsField : Option (Option ℚ)) : StaleInfo :=
  match tsField with
  | none => { stale := none, age_minutes := none }
  | some none => { stale := some true, age_minutes := some (-1) }
  | some (some t) =>
    let age := now - t
    { stale := some (decide (900 < age)), age_minutes := some (pyTruncDiv (age / 60)) }

/-- Spec-side window filter (claims C1/C4): a record qualifies for the
window starting at `start` when its timestamp is resolvable and parses
to an instant at or after `start`. -/
def windowQualifies (off start : ℚ) (r : URecord) : Bool :=
  match parse_ts off r.ts with
  | some dt => inWindow start dt
  | none => false

/-- The parsed timestamp of a record when it qualifies for the window
starting at `start`, else `none`. -/
def qualDt (off start : ℚ) (r : URecord) : Option ℚ :=
  match parse_ts off r.ts with
  | some dt => if inWindow start dt then some dt else none
  | none => none

/-- Concrete bucket (1M input, 1M cache-read) used to test claim C2. -/
def cexBucket : WindowBucket :=
  { input_tokens := 1000000, output_tokens := 0, cache_creation_tokens := 0,
    cache_read_tokens := 1000000, cost := 0 }

/-- Concrete bucket with equal input and cache-read counts. -/
def amendBucket : WindowBucket :=
  { input_tokens := 7, output_tokens := 0, cache_creation_tokens := 0,
    cache_read_tokens := 7, cost := 0 }

/-- Bucket holding only cache-read tokens. -/
def crOnlyBucket (n : ℕ) : WindowBucket :=
  { input_tokens := 0, output_tokens := 0, cache_creation_tokens := 0,
    cache_read_tokens := n, cost := 0 }

/-- Record holding only cache-read tokens. -/
def crOnlyRec (n : ℕ) : URecord :=
  { ts := RawTs.missing, input := 0, output := 0, cache_create := 0,
    cache_read := n, model := "" }

/-- Concrete record with epoch-seconds timestamp 5. -/
def sampleRec4 : URecord :=
  { ts := RawTs.num 5, input := 1, output := 2, cache_create := 3,
    cache_read := 4, model := "opus" }

/-- Concrete record with epoch-seconds timestamp 7. -/
def sampleRec10 : URecord :=
  { ts := RawTs.num 7, input := 1, output := 1, cache_create := 1,
    cache_read := 1, model := "opus" }

/-- Folding `addRec` over a record list accumulates the componentwise
sums of the four token counts on top of the initial bucket. -/
theorem foldl_addRec_fields (rs : List URecord) (b : WindowBucket) :
    (rs.foldl WindowBucket.addRec b).input_tokens
        = b.input_tokens + (rs.map URecord.input).sum
    ∧ (rs.foldl WindowBucket.addRec b).output_tokens
        = b.output_tokens + (rs.map URecord.output).sum
    ∧ (rs.foldl WindowBucket.addRec b).cache_creation_tokens
        = b.cache_creation_tokens + (rs.map URecord.cache_create).sum
    ∧ (rs.foldl WindowBucket.addRec b).cache_read_tokens
        = b.cache_read_tokens + (rs.map URecord.cache_read).sum := by
  induction rs generalizing b with
  | nil => simp
  | cons r rs ih =>
    simp only [List.foldl_cons, List.map_cons, List.sum_cons]
    obtain ⟨h1, h2, h3, h4⟩ := ih (b.addRec r)
    refine ⟨?_, ?_, ?_, ?_⟩
    · rw [h1]; simp only [WindowBucket.addRec]; omega
    · rw [h2]; simp only [WindowBucket.addRec]; omega
    · rw [h3]; simp only [WindowBucket.addRec]; omega
    · rw [h4]; simp only [WindowBucket.addRec]; omega

/-- The loop of `compute_local_summary` decomposes per window: each
bucket is the `addRec`-fold over the records qualifying for that
window, and the session oldest/newest trackers are min/max folds over
the qualifying session timestamps. -/
theorem foldl_step_spec (off now : ℚ) (rs : List URecord) (st : AggState) :
    (rs.foldl (step off now) st).session
        = (rs.filter (windowQualifies off (sessionStart now))).foldl
            WindowBucket.addRec st.session
    ∧ (rs.foldl (step off now) st).daily
        = (rs.filter (windowQualifies off (dayStart now))).foldl
            WindowBucket.addRec st.daily
    ∧ (rs.foldl (step off now) st).weekly
        = (rs.filter (windowQualifies off (weekStart now))).foldl
            WindowBucket.addRec st.weekly
    ∧ (rs.foldl (step off now) st).session_oldest
        = (rs.filterMap (qualDt off (sessionStart now))).foldl ominStep st.session_oldest
    ∧ (rs.foldl (step off now) st).session_newest
        = (rs.filterMap (qualDt off (sessionStart now))).foldl omaxStep st.session_newest := by
  induction rs generalizing st with
  | nil => simp
  | cons r rs ih =>
    simp only [List.foldl_cons, List.filter_cons, List.filterMap_cons]
    cases hp : parse_ts off r.ts with
    | none =>
      obtain ⟨i1, i2, i3, i4, i5⟩ := ih st
      have hstep : step off now st r = st := by simp [step, hp]
      rw [hstep]
      simpa [windowQualifies, qualDt, hp] using ⟨i1, i2, i3, i4, i5⟩
    | some dt =>
      obtain ⟨i1, i2, i3, i4, i5⟩ := ih (step off now st r)
      have hsess : (step off now st r).session
          = if inWindow (sessionStart now) dt then st.session.addRec r else st.session := by
        simp [step, hp]
      have hday : (step off now st r).daily
          = if inWindow (dayStart now) dt then st.daily.addRec r else st.daily := by
        simp [step, hp]
      have hweek : (step off now st r).weekly
          = if inWindow (weekStart now) dt then st.weekly.addRec r else st.weekly := by
        simp [step, hp]
      have hold : (step off now st r).session_oldest
          = if inWindow (sessionStart now) dt
              then ominStep st.session_oldest dt else st.session_oldest := by
        simp [step, hp]
      have hnew : (step off now st r).session_newest
          = if inWindow (sessionStart now) dt
              then omaxStep st.session_newest dt else st.session_newest := by
        simp [step, hp]
      have hq1 : windowQualifies off (sessionStart now) r = inWindow (sessionStart now) dt := by
        simp [windowQualifies, hp]
      have hq2 : windowQualifies off (dayStart now) r = inWindow (dayStart now) dt := by
        simp [windowQualifies, hp]
      have hq3 : windowQualifies off (weekStart now) r = inWindow (weekStart now) dt := by
        simp [windowQualifies, hp]
      have hq4 : qualDt off (sessionStart now) r
          = if inWindow (sessionStart now) dt then some dt else none := by
        simp [qualDt, hp]
      refine ⟨?_, ?_, ?_, ?_, ?_⟩
      · rw [i1, hsess, hq1]
        cases hw : inWindow (sessionStart now) dt <;> simp [hw]
      · rw [i2, hday, hq2]
        cases hw : inWindow (dayStart now) dt <;> simp [hw]
      · rw [i3, hweek, hq3]
        cases hw : inWindow (weekStart now) dt <;> simp [hw]
      · rw [i4, hold, hq4]
        cases hw : inWindow (sessionStart now) dt <;> simp [hw]
      · rw [i5, hnew, hq4]
        cases hw : inWindow (sessionStart now) dt <;> simp [hw]

/-- A min-fold started from `some a` yields the minimum of `a` and the
list elements. -/
theorem foldl_ominStep_some_spec (l : List ℚ) : ∀ a : ℚ,
    ∃ m, l.foldl ominStep (some a) = some m ∧ (m = a ∨ m ∈ l) ∧ m ≤ a ∧ ∀ x ∈ l, m ≤ x := by
  induction l with
  | nil => intro a; exact ⟨a, rfl, Or.inl rfl, le_refl a, by simp⟩
  | cons x l ih =>
    intro a
    obtain ⟨m, hm, hmem, hle, hall⟩ := ih (if x < a then x else a)
    refine ⟨m, by simpa [ominStep] using hm, ?_, ?_, ?_⟩
    · rcases hmem with h | h
      · by_cases hxa : x < a
        · rw [if_pos hxa] at h; exact Or.inr (by simp [h])
        · rw [if_neg hxa] at h; exact Or.inl h
      · exact Or.inr (List.mem_cons_of_mem x h)
    · by_cases hxa : x < a
      · rw [if_pos hxa] at hle; exact le_trans hle (le_of_lt hxa)
      · rw [if_neg hxa] at hle; exact hle
    · intro y hy
      rcases List.mem_cons.mp hy with h | h
      · subst h
        by_cases hxa : y < a
        · rw [if_pos hxa] at hle; exact hle
        · rw [if_neg hxa] at hle; exact le_trans hle (not_lt.mp hxa)
      · exact hall y h

/-- A max-fold started from `some a` yields the maximum of `a` and the
list elements. -/
theorem foldl_omaxStep_some_spec (l : List ℚ) : ∀ a : ℚ,
    ∃ m, l.foldl omaxStep (some a) = some m ∧ (m = a ∨ m ∈ l) ∧ a ≤ m ∧ ∀ x ∈ l, x ≤ m := by
  induction l with
  | nil => intro a; exact ⟨a, rfl, Or.inl rfl, le_refl a, by simp⟩
  | cons x l ih =>
    intro a
    obtain ⟨m, hm, hmem, hle, hall⟩ := ih (if a < x then x else a)
    refine ⟨m, by simpa [omaxStep] using hm, ?_, ?_, ?_⟩
    · rcases hmem with h | h
      · by_cases hxa : a < x
        · rw [if_pos hxa] at h; exact Or.inr (by simp [h])
        · rw [if_neg hxa] at h; exact Or.inl h
      · exact Or.inr (List.mem_cons_of_mem x h)
    · by_cases hxa : a < x
      · rw [if_pos hxa] at hle; exact le_trans (le_of_lt hxa) hle
      · rw [if_neg hxa] at hle; exact hle
    · intro y hy
      rcases List.mem_cons.mp hy with h | h
      · subst h
        by_cases hxa : a < y
        · rw [if_pos hxa] at hle; exact hle
        · rw [if_neg hxa] at hle; exact le_trans (not_lt.mp hxa) hle
      · exact hall y h

/-- A min-fold from `none` over a nonempty list yields the list minimum. -/
theorem foldl_ominStep_none_spec (l : List ℚ) (hl : l ≠ []) :
    ∃ m, l.foldl ominStep none = some m ∧ m ∈ l ∧ ∀ x ∈ l, m ≤ x := by
  cases l with
  | nil => exact absurd rfl hl
  | cons x l =>
    obtain ⟨m, hm, hmem, hle, hall⟩ := foldl_ominStep_some_spec l x
    refine ⟨m, by simpa [ominStep] using hm, ?_, ?_⟩
    · rcases hmem with h | h
      · simp [h]
      · exact List.mem_cons_of_mem x h
    · intro y hy
      rcases List.mem_cons.mp hy with h | h
      · subst h; exact hle
      · exact hall y h

/-- A max-fold from `none` over a nonempty list yields the list maximum. -/
theorem foldl_omaxStep_none_spec (l : List ℚ) (hl : l ≠ []) :
    ∃ m, l.foldl omaxStep none = some m ∧ m ∈ l ∧ ∀ x ∈ l, x ≤ m := by
  cases l with
  | nil => exact absurd rfl hl
  | cons x l =>
    obtain ⟨m, hm, hmem, hle, hall⟩ := foldl_omaxStep_some_spec l x
    refine ⟨m, by simpa [omaxStep] using hm, ?_, ?_⟩
    · rcases hmem with h | h
      · simp [h]
      · exact List.mem_cons_of_mem x h
    · intro y hy
      rcases List.mem_cons.mp hy with h | h
      · subst h; exact hle
      · exact hall y h

/-- The min-fold from `none` is `none` exactly on the empty list. -/
theorem foldl_ominStep_none_eq_none (l : List ℚ) :
    l.foldl ominStep none = none ↔ l = [] := by
  constructor
  · intro h
    by_contra hl
    obtain ⟨m, hm, _, _⟩ := foldl_ominStep_none_spec l hl
    rw [h] at hm
    exact Option.noConfusion hm
  · intro h; subst h; rfl

/-- The max-fold from `none` is `none` exactly on the empty list. -/
theorem foldl_omaxStep_none_eq_none (l : List ℚ) :
    l.foldl omaxStep none = none ↔ l = [] := by
  constructor
  · intro h
    by_contra hl
    obtain ⟨m, hm, _, _⟩ := foldl_omaxStep_none_spec l hl
    rw [h] at hm
    exact Option.noConfusion hm
  · intro h; subst h; rfl

/-- Characterization of a qualifying parsed timestamp. -/
theorem qualDt_eq_some (off s : ℚ) (r : URecord) (x : ℚ) :
    qualDt off s r = some x ↔ parse_ts off r.ts = some x ∧ inWindow s x = true := by
  cases hp : parse_ts off r.ts with
  | none => simp [qualDt, hp]
  | some dt =>
    simp only [qualDt, hp]
    by_cases hw : inWindow s dt = true
    · rw [if_pos hw]
      constructor
      · intro h
        cases h
        exact ⟨rfl, hw⟩
      · intro ⟨h1, _⟩
        cases h1
        rfl
    · rw [if_neg hw]
      constructor
      · intro h; exact Option.noConfusion h
      · intro ⟨h1, h2⟩
        cases h1
        exact absurd h2 hw

/-- Membership in the qualifying-timestamp list of a record list. -/
theorem mem_qualDts (off s x : ℚ) (rs : List URecord) :
    x ∈ rs.filterMap (qualDt off s)
      ↔ ∃ r ∈ rs, parse_ts off r.ts = some x ∧ inWindow s x = true := by
  rw [List.mem_filterMap]
  constructor
  · rintro ⟨r, hr, hq⟩
    exact ⟨r, hr, (qualDt_eq_some off s r x).mp hq⟩
  · rintro ⟨r, hr, hq⟩
    exact ⟨r, hr, (qualDt_eq_some off s r x).mpr hq⟩

/-- A qualifying record exists exactly when the qualifying-timestamp
list is nonempty. -/
theorem exists_qualifying_iff (off s : ℚ) (rs : List URecord) :
    (∃ r ∈ rs, windowQualifies off s r = true) ↔ rs.filterMap (qualDt off s) ≠ [] := by
  constructor
  · rintro ⟨r, hr, hq⟩
    cases hp : parse_ts off r.ts with
    | none => simp [windowQualifies, hp] at hq
    | some dt =>
      have hw : inWindow s dt = true := by simpa [windowQualifies, hp] using hq
      have hmem : dt ∈ rs.filterMap (qualDt off s) :=
        (mem_qualDts off s dt rs).mpr ⟨r, hr, hp, hw⟩
      exact List.ne_nil_of_mem hmem
  · intro hne
    obtain ⟨x, hx⟩ := List.exists_mem_of_ne_nil _ hne
    obtain ⟨r, hr, hp, hw⟩ := (mem_qualDts off s x rs).mp hx
    exact ⟨r, hr, by simp [windowQualifies, hp, hw]⟩

/-- Every qualifying timestamp lies at or after the window start. -/
theorem qualDts_ge_start (off s : ℚ) (rs : List URecord) :
    ∀ x ∈ rs.filterMap (qualDt off s), s ≤ x := by
  intro x hx
  obtain ⟨r, _, _, hw⟩ := (mem_qualDts off s x rs).mp hx
  simpa [inWindow] using hw

/-- `statStep` always adds the record to the lifetime totals. -/
theorem statStep_totals (off a w : ℚ) (s : UsageStats) (r : URecord) :
    (statStep off a w s r).total_tokens = s.total_tokens + recTokens r
    ∧ (statStep off a w s r).total_calls = s.total_calls + 1 := by
  unfold statStep
  cases hp : parse_ts off r.ts with
  | none => simp [hp]
  | some dt =>
    simp only [hp]
    by_cases h1 : inWindow a dt = true <;> by_cases h2 : inWindow w dt = true <;>
      simp [h1, h2]

/-- Folding `statStep` accumulates every record into the lifetime
totals regardless of its timestamp. -/
theorem foldl_statStep_totals (off a w : ℚ) (rs : List URecord) (s : UsageStats) :
    (rs.foldl (statStep off a w) s).total_tokens
        = s.total_tokens + (rs.map recTokens).sum
    ∧ (rs.foldl (statStep off a w) s).total_calls = s.total_calls + rs.length := by
  induction rs generalizing s with
  | nil => simp
  | cons r rs ih =>
    simp only [List.foldl_cons, List.map_cons, List.sum_cons, List.length_cons]
    obtain ⟨h1, h2⟩ := ih (statStep off a w s r)
    obtain ⟨t1, t2⟩ := statStep_totals off a w s r
    constructor
    · rw [h1, t1]; omega
    · rw [h2, t2]; omega

/-- Unfolding the reset loop when the candidate has not yet passed `now`. -/
theorem advanceReset_of_le {now reset : ℚ} (h : reset ≤ now) :
    advanceReset now reset = advanceReset now (reset + 604800) := by
  rw [advanceReset]
  simp [h]

/-- Unfolding the reset loop when the candidate has passed `now`. -/
theorem advanceReset_of_gt {now reset : ℚ} (h : ¬ reset ≤ now) :
    advanceReset now reset = reset := by
  rw [advanceReset]
  simp [h]

/-- Closed form of the reset loop: when `now` falls in the `k`-th 7-day
cycle after the origin, the loop lands on the end of that cycle. -/
theorem advanceReset_formula (now : ℚ) : ∀ (k : ℕ) (O : ℚ),
    O + 604800 * (k : ℚ) ≤ now → now < O + 604800 * ((k : ℚ) + 1) →
    advanceReset now O = O + 604800 * ((k : ℚ) + 1) := by
  intro k
  induction k with
  | zero =>
    intro O h1 h2
    push_cast at h1 h2
    have hO : O ≤ now := by linarith
    have hstop : ¬ O + 604800 ≤ now := by linarith
    rw [advanceReset_of_le hO, advanceReset_of_gt hstop]
    push_cast
    ring
  | succ k ih =>
    intro O h1 h2
    push_cast at h1 h2
    have hk : (0 : ℚ) ≤ (k : ℚ) := Nat.cast_nonneg k
    have hO : O ≤ now := by nlinarith
    rw [advanceReset_of_le hO]
    have hr := ih (O + 604800) (by linarith) (by linarith)
    rw [hr]
    push_cast
    ring

/-- The session bucket of the summary is the `addRec`-fold over the
session-qualifying records. -/
theorem cls_session_eq (off : ℚ) (origin : Option ℚ) (rs : List URecord) (now : ℚ) :
    (compute_local_summary off origin rs now).session
      = (rs.filter (windowQualifies off (sessionStart now))).foldl
          WindowBucket.addRec emptyBucket :=
  (foldl_step_spec off now rs initState).1

/-- The daily bucket of the summary is the `addRec`-fold over the
daily-qualifying records. -/
theorem cls_daily_eq (off : ℚ) (origin : Option ℚ) (rs : List URecord) (now : ℚ) :
    (compute_local_summary off origin rs now).daily
      = (rs.filter (windowQualifies off (dayStart now))).foldl
          WindowBucket.addRec emptyBucket :=
  (foldl_step_spec off now rs initState).2.1

/-- The weekly bucket of the summary is the `addRec`-fold over the
weekly-qualifying records. -/
theorem cls_weekly_eq (off : ℚ) (origin : Option ℚ) (rs : List URecord) (now : ℚ) :
    (compute_local_summary off origin rs now).weekly
      = (rs.filter (windowQualifies off (weekStart now))).foldl
          WindowBucket.addRec emptyBucket :=
  (foldl_step_spec off now rs initState).2.2.1

/-- The summary's `session_oldest` is the min-fold over the qualifying
session timestamps. -/
theorem cls_oldest_eq (off : ℚ) (origin : Option ℚ) (rs : List URecord) (now : ℚ) :
    (compute_local_summary off origin rs now).session_oldest
      = (rs.filterMap (qualDt off (sessionStart now))).foldl ominStep none :=
  (foldl_step_spec off now rs initState).2.2.2.1

/-- The loop state's `session_newest` is the max-fold over the
qualifying session timestamps. -/
theorem cls_state_newest_eq (off now : ℚ) (rs : List URecord) :
    (rs.foldl (step off now) initState).session_newest
      = (rs.filterMap (qualDt off (sessionStart now))).foldl omaxStep none :=
  (foldl_step_spec off now rs initState).2.2.2.2

/-- The summary's `session_resets_at` in terms of the loop state. -/
theorem cls_resets_eq (off : ℚ) (origin : Option ℚ) (rs : List URecord) (now : ℚ) :
    (compute_local_summary off origin rs now).session_resets_at
      = match (rs.foldl (step off now) initState).session_oldest with
        | some o => some (o + 18000)
        | none => none := rfl

/-- The summary's `session_newest` in terms of the loop state. -/
theorem cls_newest_eq (off : ℚ) (origin : Option ℚ) (rs : List URecord) (now : ℚ) :
    (compute_local_summary off origin rs now).session_newest
      = match (rs.foldl (step off now) initState).session_oldest with
        | some _ => (rs.foldl (step off now) initState).session_newest
        | none => none := rfl

/-- The loop state's `session_oldest` equals the summary field. -/
theorem cls_state_oldest_eq (off : ℚ) (origin : Option ℚ) (rs : List URecord) (now : ℚ) :
    (rs.foldl (step off now) initState).session_oldest
      = (compute_local_summary off origin rs now).session_oldest := rfl

/-- C1.  For every record list and instant `now`, each of the four
token counters of the session bucket computed by
`compute_local_summary` equals the sum of that token field over exactly
the records whose timestamp is resolvable and parses to an instant at
or after `now - 5h`; the same identities hold for the daily bucket
(window start = start of the calendar day of `now`) and the weekly
bucket (window start = `now - 7d`). -/
theorem claim1_window_token_sums (off : ℚ) (origin : Option ℚ) (rs : List URecord)
    (now : ℚ) :
    ((compute_local_summary off origin rs now).session.input_tokens
        = ((rs.filter (windowQualifies off (sessionStart now))).map URecord.input).sum
    ∧ (compute_local_summary off origin rs now).session.output_tokens
        = ((rs.filter (windowQualifies off (sessionStart now))).map URecord.output).sum
    ∧ (compute_local_summary off origin rs now).session.cache_creation_tokens
        = ((rs.filter (windowQualifies off (sessionStart now))).map URecord.cache_create).sum
    ∧ (compute_local_summary off origin rs now).session.cache_read_tokens
        = ((rs.filter (windowQualifies off (sessionStart now))).map URecord.cache_read).sum)
    ∧ ((compute_local_summary off origin rs now).daily.input_tokens
        = ((rs.filter (windowQualifies off (dayStart now))).map URecord.input).sum
    ∧ (compute_local_summary off origin rs now).daily.output_tokens
        = ((rs.filter (windowQualifies off (dayStart now))).map URecord.output).sum
    ∧ (compute_local_summary off origin rs now).daily.cache_creation_tokens
        = ((rs.filter (windowQualifies off (dayStart now))).map URecord.cache_create).sum
    ∧ (compute_local_summary off origin rs now).daily.cache_read_tokens
        = ((rs.filter (windowQualifies off (dayStart now))).map URecord.cache_read).sum)
    ∧ ((compute_local_summary off origin rs now).weekly.input_tokens
        = ((rs.filter (windowQualifies off (weekStart now))).map URecord.input).sum
    ∧ (compute_local_summary off origin rs now).weekly.output_tokens
        = ((rs.filter (windowQualifies off (weekStart now))).map URecord.output).sum
    ∧ (compute_local_summary off origin rs now).weekly.cache_creation_tokens
        = ((rs.filter (windowQualifies off (weekStart now))).map URecord.cache_create).sum
    ∧ (compute_local_summary off origin rs now).weekly.cache_read_tokens
        = ((rs.filter (windowQualifies off (weekStart now))).map URecord.cache_read).sum) := by
  obtain ⟨s1, s2, s3, s4⟩ :=
    foldl_addRec_fields (rs.filter (windowQualifies off (sessionStart now))) emptyBucket
  obtain ⟨d1, d2, d3, d4⟩ :=
    foldl_addRec_fields (rs.filter (windowQualifies off (dayStart now))) emptyBucket
  obtain ⟨w1, w2, w3, w4⟩ :=
    foldl_addRec_fields (rs.filter (windowQualifies off (weekStart now))) emptyBucket
  refine ⟨⟨?_, ?_, ?_, ?_⟩, ⟨?_, ?_, ?_, ?_⟩, ⟨?_, ?_, ?_, ?_⟩⟩
  · rw [cls_session_eq off origin rs now, s1]; simp [emptyBucket]
  · rw [cls_session_eq off origin rs now, s2]; simp [emptyBucket]
  · rw [cls_session_eq off origin rs now, s3]; simp [emptyBucket]
  · rw [cls_session_eq off origin rs now, s4]; simp [emptyBucket]
  · rw [cls_daily_eq off origin rs now, d1]; simp [emptyBucket]
  · rw [cls_daily_eq off origin rs now, d2]; simp [emptyBucket]
  · rw [cls_daily_eq off origin rs now, d3]; simp [emptyBucket]
  · rw [cls_daily_eq off origin rs now, d4]; simp [emptyBucket]
  · rw [cls_weekly_eq off origin rs now, w1]; simp [emptyBucket]
  · rw [cls_weekly_eq off origin rs now, w2]; simp [emptyBucket]
  · rw [cls_weekly_eq off origin rs now, w3]; simp [emptyBucket]
  · rw [cls_weekly_eq off origin rs now, w4]; simp [emptyBucket]

/-- C2 counterexample.  On the bucket with one million input tokens and
one million cache-read tokens, doubling the cache-read count changes
`effective_cost` by 0.1875 while doubling the input count changes it by
15: the former is not one tenth of the latter. -/
theorem claim2_counterexample :
    ¬ (effective_cost (doubleCacheRead cexBucket) - effective_cost cexBucket
        = (1 / 10) * (effective_cost (doubleInput cexBucket) - effective_cost cexBucket)) := by
  norm_num [effective_cost, doubleCacheRead, doubleInput, cexBucket]

/-- C2 amended.  Under `effective_cost`, the cache-read weight (0.1875
per million) is one eightieth of the input rate: for every bucket with
equal cache-read and input counts, doubling cache-read changes the
effective cost by one eightieth of the change caused by doubling input;
moreover on a cache-read-only load the rate-limit profile charges
exactly one tenth of the collector's display-profile cost (whose
cache-read rate is 1.875 per million). -/
theorem claim2_amended_ratio (b : WindowBucket)
    (h : b.cache_read_tokens = b.input_tokens) :
    (effective_cost (doubleCacheRead b) - effective_cost b
        = (1 / 80) * (effective_cost (doubleInput b) - effective_cost b))
    ∧ ∀ n : ℕ, effective_cost (crOnlyBucket n) = (1 / 10) * recCost (crOnlyRec n) := by
  constructor
  · simp only [effective_cost, doubleCacheRead, doubleInput, h]
    push_cast
    ring
  · intro n
    simp only [effective_cost, recCost, crOnlyBucket, crOnlyRec]
    push_cast
    ring

/-- Witness for the amended C2 at a concrete bucket with 7 input and 7
cache-read tokens. -/
theorem claim2_amended_witness :
    amendBucket.cache_read_tokens = amendBucket.input_tokens
    ∧ (effective_cost (doubleCacheRead amendBucket) - effective_cost amendBucket
        = (1 / 80) * (effective_cost (doubleInput amendBucket) - effective_cost amendBucket)) :=
  ⟨rfl, (claim2_amended_ratio amendBucket rfl).1⟩

/-- C3.  With an origin instant `O` and `O + 7d*k <= now < O + 7d*(k+1)`,
`get_weekly_reset` returns `O + 7d*(k+1)`; with no origin it returns
`None`. -/
theorem claim3_weekly_reset (O now : ℚ) (k : ℕ)
    (h1 : O + 604800 * (k : ℚ) ≤ now) (h2 : now < O + 604800 * ((k : ℚ) + 1)) :
    get_weekly_reset (some O) now = some (O + 604800 * ((k : ℚ) + 1))
    ∧ ∀ t : ℚ, get_weekly_reset none t = none := by
  constructor
  · show Option.map (advanceReset now) (some O) = _
    rw [Option.map_some']
    rw [advanceReset_formula now k O h1 h2]
  · intro t
    rfl

/-- Witness for C3: origin 0, `now` 100 seconds later, first cycle. -/
theorem claim3_witness :
    ((0 : ℚ) + 604800 * ((0 : ℕ) : ℚ) ≤ 100
    ∧ (100 : ℚ) < 0 + 604800 * (((0 : ℕ) : ℚ) + 1))
    ∧ get_weekly_reset (some 0) 100 = some (0 + 604800 * (((0 : ℕ) : ℚ) + 1)) := by
  have h1 : (0 : ℚ) + 604800 * ((0 : ℕ) : ℚ) ≤ 100 := by norm_num
  have h2 : (100 : ℚ) < 0 + 604800 * (((0 : ℕ) : ℚ) + 1) := by norm_num
  exact ⟨⟨h1, h2⟩, (claim3_weekly_reset 0 100 0 h1 h2).1⟩

/-- C5.  When the Admin API is configured (non-empty key) but the
remote call fails with any exception, the pass still returns exactly
one snapshot, tagged `source = "local"`, whose buckets and reset fields
are those of the local aggregation over the same parsed records. -/
theorem claim5_remote_failure_fallback (off : ℚ) (apiKey err : String)
    (rs : List URecord) (now : ℚ) (origin : Option ℚ) (cfgCost : ℚ)
    (hk : apiKey ≠ "") :
    collect off apiKey (Except.error err) rs now origin cfgCost
      = { timestamp := now, source := "local",
          session := (compute_local_summary off origin rs now).session,
          daily := (compute_local_summary off origin rs now).daily,
          weekly := (compute_local_summary off origin rs now).weekly,
          session_resets_at := (compute_local_summary off origin rs now).session_resets_at,
          session_oldest := (compute_local_summary off origin rs now).session_oldest,
          session_newest := (compute_local_summary off origin rs now).session_newest,
          weekly_resets_at := (compute_local_summary off origin rs now).weekly_resets_at,
          config_cost := cfgCost }
    ∧ (collect off apiKey (Except.error err) rs now origin cfgCost).source = "local" := by
  have h : collect off apiKey (Except.error err) rs now origin cfgCost
      = { timestamp := now, source := "local",
          session := (compute_local_summary off origin rs now).session,
          daily := (compute_local_summary off origin rs now).daily,
          weekly := (compute_local_summary off origin rs now).weekly,
          session_resets_at := (compute_local_summary off origin rs now).session_resets_at,
          session_oldest := (compute_local_summary off origin rs now).session_oldest,
          session_newest := (compute_local_summary off origin rs now).session_newest,
          weekly_resets_at := (compute_local_summary off origin rs now).weekly_resets_at,
          config_cost := cfgCost } := by
    simp [collect, hk, Except.toOption]
  exact ⟨h, by rw [h]⟩

/-- Witness for C5: a configured key, a failing remote call, empty logs. -/
theorem claim5_witness :
    ("k" : String) ≠ ""
    ∧ (collect 0 "k" (Except.error "boom") [] 0 none 0).source = "local" := by
  have hk : ("k" : String) ≠ "" := by decide
  exact ⟨hk, (claim5_remote_failure_fallback 0 "k" "boom" [] 0 none 0 hk).2⟩

/-- C6.  The aggregation is deterministic and pure: rerunning
`compute_local_summary` on identical inputs gives an identical result,
and every output component except the config-derived
`weekly_resets_at` is independent of the config-file state (the only
other state the source function reads). -/
theorem claim6_deterministic_pure (off : ℚ) (rs : List URecord) (now : ℚ)
    (origin1 origin2 : Option ℚ) :
    compute_local_summary off origin1 rs now = compute_local_summary off origin1 rs now
    ∧ (compute_local_summary off origin1 rs now).session
        = (compute_local_summary off origin2 rs now).session
    ∧ (compute_local_summary off origin1 rs now).daily
        = (compute_local_summary off origin2 rs now).daily
    ∧ (compute_local_summary off origin1 rs now).weekly
        = (compute_local_summary off origin2 rs now).weekly
    ∧ (compute_local_summary off origin1 rs now).session_oldest
        = (compute_local_summary off origin2 rs now).session_oldest
    ∧ (compute_local_summary off origin1 rs now).session_newest
        = (compute_local_summary off origin2 rs now).session_newest
    ∧ (compute_local_summary off origin1 rs now).session_resets_at
        = (compute_local_summary off origin2 rs now).session_resets_at :=
  ⟨rfl, rfl, rfl, rfl, rfl, rfl, rfl⟩

/-- C7.  Monotone window containment: a session-qualifying timestamp
also qualifies for the daily window whenever the calendar-day start is
at or before the session-window start, and every daily-qualifying
timestamp qualifies for the trailing 7-day window. -/
theorem claim7_window_containment (now dt : ℚ) :
    (dayStart now ≤ sessionStart now →
      inWindow (sessionStart now) dt = true → inWindow (dayStart now) dt = true)
    ∧ (inWindow (dayStart now) dt = true → inWindow (weekStart now) dt = true) := by
  constructor
  · intro hds hs
    have h1 : sessionStart now ≤ dt := by simpa [inWindow] using hs
    simp only [inWindow, decide_eq_true_eq]
    linarith
  · intro hd
    have h1 : dayStart now ≤ dt := by simpa [inWindow] using hd
    have h2 : now / 86400 - 1 < ((⌊now / 86400⌋ : ℤ) : ℚ) := Int.sub_one_lt_floor _
    have h3 : (86400 : ℚ) * (now / 86400 - 1) < 86400 * ((⌊now / 86400⌋ : ℤ) : ℚ) :=
      mul_lt_mul_of_pos_left h2 (by norm_num)
    have h4 : (86400 : ℚ) * (now / 86400 - 1) = now - 86400 := by ring
    have h5 : now - 86400 < dayStart now := by
      rw [dayStart]
      linarith
    simp only [inWindow, decide_eq_true_eq, weekStart]
    linarith

/-- Witness for C7 at `now` = 5:00 AM (18000 s past local midnight) and
a timestamp inside all three windows. -/
theorem claim7_witness :
    (dayStart 18000 ≤ sessionStart 18000
    ∧ inWindow (sessionStart 18000) 10000 = true)
    ∧ inWindow (dayStart 18000) 10000 = true
    ∧ inWindow (weekStart 18000) 10000 = true := by
  have hfl : (⌊(18000 : ℚ) / 86400⌋ : ℤ) = 0 := by
    rw [Int.floor_eq_zero_iff]
    constructor <;> norm_num
  have hd : dayStart 18000 ≤ sessionStart 18000 := by
    rw [dayStart, sessionStart, hfl]
    norm_num
  have hs : inWindow (sessionStart 18000) 10000 = true := by
    simp only [inWindow, sessionStart, decide_eq_true_eq]
    norm_num
  have hdw := (claim7_window_containment 18000 10000).1 hd hs
  exact ⟨⟨hd, hs⟩, hdw, (claim7_window_containment 18000 10000).2 hdw⟩

/-- C8.  Timestamp normalization: a numeric raw timestamp strictly
greater than 1e12 is read as epoch milliseconds, any other numeric
value as epoch seconds; an ISO string yields its parsed local naive
instant; a missing or malformed timestamp parses to `none` rather than
failing, and such records are still retained — `compute_usage_stats`
counts every record in its lifetime totals regardless of its
timestamp. -/
theorem claim8_timestamp_normalization (off : ℚ) :
    (∀ x : ℚ, 1000000000000 < x →
        parse_ts off (RawTs.num x) = some (x / 1000 + off))
    ∧ (∀ x : ℚ, ¬ 1000000000000 < x →
        parse_ts off (RawTs.num x) = some (x + off))
    ∧ (∀ p : Option ℚ, parse_ts off (RawTs.iso p) = p)
    ∧ parse_ts off RawTs.missing = none
    ∧ (∀ (wd0 : ℕ) (now : ℚ) (rs : List URecord),
        (compute_usage_stats off wd0 rs now).total_tokens = (rs.map recTokens).sum
        ∧ (compute_usage_stats off wd0 rs now).total_calls = rs.length) := by
  refine ⟨?_, ?_, ?_, rfl, ?_⟩
  · intro x hx
    simp [parse_ts, hx]
  · intro x hx
    simp [parse_ts, hx]
  · intro p
    rfl
  · intro wd0 now rs
    have h := foldl_statStep_totals off (now - 18000) (weekStartCW wd0 now) rs
      { session_tokens := 0, session_calls := 0, week_tokens := 0, week_calls := 0,
        total_tokens := 0, total_calls := 0 }
    simp only [compute_usage_stats]
    constructor
    · rw [h.1]
      simp
    · rw [h.2]
      simp

/-- Witness for C8: 2e12 is read as milliseconds, 5 as seconds. -/
theorem claim8_witness :
    ((1000000000000 : ℚ) < 2000000000000
    ∧ parse_ts 0 (RawTs.num 2000000000000) = some (2000000000000 / 1000 + 0))
    ∧ (¬ (1000000000000 : ℚ) < 5
    ∧ parse_ts 0 (RawTs.num 5) = some (5 + 0)) := by
  have ha : (1000000000000 : ℚ) < 2000000000000 := by norm_num
  have hb : ¬ (1000000000000 : ℚ) < 5 := by norm_num
  exact ⟨⟨ha, (claim8_timestamp_normalization 0).1 2000000000000 ha⟩,
         ⟨hb, (claim8_timestamp_normalization 0).2.1 5 hb⟩⟩

/-- C9.  A snapshot with a parseable embedded timestamp is marked stale
exactly when its age exceeds 15 minutes; in particular an age of 20
minutes is stale and an age of 5 minutes is not. -/
theorem claim9_staleness (now t : ℚ) :
    ((read_collector_summary_staleness now (some (some t))).stale = some true
        ↔ 15 * 60 < now - t)
    ∧ (read_collector_summary_staleness now (some (some (now - 20 * 60)))).stale = some true
    ∧ (read_collector_summary_staleness now (some (some (now - 5 * 60)))).stale
        = some false := by
  refine ⟨?_, ?_, ?_⟩
  · simp only [read_collector_summary_staleness, Option.some.injEq,
      decide_eq_true_eq]
    constructor
    · intro h
      norm_num
      linarith
    · intro h
      norm_num at h ⊢
      linarith
  · have h : now - (now - 20 * 60) = 1200 := by ring
    simp [read_collector_summary_staleness, h]
    norm_num
  · have h : now - (now - 5 * 60) = 300 := by ring
    simp [read_collector_summary_staleness, h]
    norm_num

/-- Witness for C9 at a concrete 20-minute-old snapshot. -/
theorem claim9_witness :
    (read_collector_summary_staleness 1200 (some (some 0))).stale = some true :=
  (claim9_staleness 1200 0).1.mpr (by norm_num)

/-- C4.  When at least one record qualifies for the session window, the
session reset instant is the oldest qualifying timestamp plus 5 hours;
when no record qualifies, the reset field is `None` rather than an
error. -/
theorem claim4_session_reset (off now : ℚ) (origin : Option ℚ) (rs : List URecord) :
    ((∃ r ∈ rs, windowQualifies off (sessionStart now) r = true) →
      ∃ m, (compute_local_summary off origin rs now).session_resets_at = some (m + 18000)
        ∧ (compute_local_summary off origin rs now).session_oldest = some m
        ∧ (∃ r ∈ rs, parse_ts off r.ts = some m ∧ inWindow (sessionStart now) m = true)
        ∧ (∀ r ∈ rs, ∀ dt : ℚ, parse_ts off r.ts = some dt →
            inWindow (sessionStart now) dt = true → m ≤ dt))
    ∧ ((¬ ∃ r ∈ rs, windowQualifies off (sessionStart now) r = true) →
      (compute_local_summary off origin rs now).session_resets_at = none) := by
  constructor
  · intro hex
    have hne : rs.filterMap (qualDt off (sessionStart now)) ≠ [] :=
      (exists_qualifying_iff off (sessionStart now) rs).mp hex
    obtain ⟨m, hm, hmem, hall⟩ := foldl_ominStep_none_spec _ hne
    have hold : (rs.foldl (step off now) initState).session_oldest = some m := by
      rw [(foldl_step_spec off now rs initState).2.2.2.1]
      exact hm
    refine ⟨m, ?_, ?_, ?_, ?_⟩
    · rw [cls_resets_eq off origin rs now, hold]
    · rw [cls_oldest_eq off origin rs now]
      exact hm
    · exact (mem_qualDts off (sessionStart now) m rs).mp hmem
    · intro r hr dt hp hw
      exact hall dt ((mem_qualDts off (sessionStart now) dt rs).mpr ⟨r, hr, hp, hw⟩)
  · intro hnex
    have hempty : rs.filterMap (qualDt off (sessionStart now)) = [] := by
      by_contra hne
      exact hnex ((exists_qualifying_iff off (sessionStart now) rs).mpr hne)
    have hold : (rs.foldl (step off now) initState).session_oldest = none := by
      rw [(foldl_step_spec off now rs initState).2.2.2.1, hempty]
      rfl
    rw [cls_resets_eq off origin rs now, hold]

/-- Witness for C4: one record with epoch-seconds timestamp 5 at `now = 0`. -/
theorem claim4_witness :
    (∃ r ∈ [sampleRec4], windowQualifies 0 (sessionStart 0) r = true)
    ∧ ∃ m, (compute_local_summary 0 none [sampleRec4] 0).session_resets_at = some (m + 18000)
      ∧ (compute_local_summary 0 none [sampleRec4] 0).session_oldest = some m
      ∧ (∃ r ∈ [sampleRec4], parse_ts 0 r.ts = some m ∧ inWindow (sessionStart 0) m = true)
      ∧ (∀ r ∈ [sampleRec4], ∀ dt : ℚ, parse_ts 0 r.ts = some dt →
          inWindow (sessionStart 0) dt = true → m ≤ dt) := by
  have hp : parse_ts 0 sampleRec4.ts = some 5 := by
    show parse_ts 0 (RawTs.num 5) = some 5
    simp only [parse_ts]
    norm_num
  have hq : windowQualifies 0 (sessionStart 0) sampleRec4 = true := by
    simp only [windowQualifies, hp, inWindow, sessionStart, decide_eq_true_eq]
    norm_num
  have hex : ∃ r ∈ [sampleRec4], windowQualifies 0 (sessionStart 0) r = true :=
    ⟨sampleRec4, by simp, hq⟩
  exact ⟨hex, (claim4_session_reset 0 0 none [sampleRec4]).1 hex⟩

/-- C10.  Invariants of the aggregation result: `session_oldest`,
`session_newest` and `session_resets_at` are defined together; when
defined, the oldest lies between the session window start and the
newest, the reset is oldest + 5h, and the reset is not before `now`. -/
theorem claim10_session_invariants (off now : ℚ) (origin : Option ℚ) (rs : List URecord) :
    ((compute_local_summary off origin rs now).session_oldest.isSome
        = (compute_local_summary off origin rs now).session_newest.isSome)
    ∧ ((compute_local_summary off origin rs now).session_oldest.isSome
        = (compute_local_summary off origin rs now).session_resets_at.isSome)
    ∧ ∀ o : ℚ, (compute_local_summary off origin rs now).session_oldest = some o →
        sessionStart now ≤ o
        ∧ (∀ n : ℚ, (compute_local_summary off origin rs now).session_newest = some n → o ≤ n)
        ∧ (compute_local_summary off origin rs now).session_resets_at = some (o + 18000)
        ∧ now ≤ o + 18000 := by
  by_cases hne : rs.filterMap (qualDt off (sessionStart now)) = []
  · have hold : (rs.foldl (step off now) initState).session_oldest = none := by
      rw [(foldl_step_spec off now rs initState).2.2.2.1, hne]
      rfl
    have ho : (compute_local_summary off origin rs now).session_oldest = none := by
      rw [cls_oldest_eq off origin rs now, hne]
      rfl
    have hn : (compute_local_summary off origin rs now).session_newest = none := by
      rw [cls_newest_eq off origin rs now, hold]
    have hr : (compute_local_summary off origin rs now).session_resets_at = none := by
      rw [cls_resets_eq off origin rs now, hold]
    refine ⟨by simp [ho, hn], by simp [ho, hr], ?_⟩
    intro o hco
    rw [ho] at hco
    exact Option.noConfusion hco
  · obtain ⟨m, hm, hmem, hall⟩ := foldl_ominStep_none_spec _ hne
    obtain ⟨M, hM, hMmem, hMall⟩ := foldl_omaxStep_none_spec _ hne
    have hold : (rs.foldl (step off now) initState).session_oldest = some m := by
      rw [(foldl_step_spec off now rs initState).2.2.2.1]
      exact hm
    have hnewstate : (rs.foldl (step off now) initState).session_newest = some M := by
      rw [cls_state_newest_eq off now rs]
      exact hM
    have ho : (compute_local_summary off origin rs now).session_oldest = some m := by
      rw [cls_oldest_eq off origin rs now]
      exact hm
    have hn : (compute_local_summary off origin rs now).session_newest = some M := by
      rw [cls_newest_eq off origin rs now, hold, hnewstate]
    have hr : (compute_local_summary off origin rs now).session_resets_at
        = some (m + 18000) := by
      rw [cls_resets_eq off origin rs now, hold]
    refine ⟨by simp [ho, hn], by simp [ho, hr], ?_⟩
    intro o hco
    rw [ho] at hco
    have hom : m = o := by simpa using hco
    subst hom
    have hge : sessionStart now ≤ m := qualDts_ge_start off (sessionStart now) rs m hmem
    refine ⟨hge, ?_, hr, ?_⟩
    · intro n hcn
      rw [hn] at hcn
      have hMn : M = n := by simpa using hcn
      subst hMn
      exact hall M hMmem
    · rw [sessionStart] at hge
      linarith

/-- Witness for C10: one record with epoch-seconds timestamp 7 at `now = 0`. -/
theorem claim10_witness :
    (compute_local_summary 0 none [sampleRec10] 0).session_oldest = some 7
    ∧ (sessionStart 0 ≤ 7
      ∧ (∀ n : ℚ, (compute_local_summary 0 none [sampleRec10] 0).session_newest = some n
          → 7 ≤ n)
      ∧ (compute_local_summary 0 none [sampleRec10] 0).session_resets_at = some (7 + 18000)
      ∧ (0 : ℚ) ≤ 7 + 18000) := by
  have hp : parse_ts 0 sampleRec10.ts = some 7 := by
    show parse_ts 0 (RawTs.num 7) = some 7
    simp only [parse_ts]
    norm_num
  have hq : qualDt 0 (sessionStart 0) sampleRec10 = some 7 := by
    rw [qualDt_eq_some]
    refine ⟨hp, ?_⟩
    simp only [inWindow, sessionStart, decide_eq_true_eq]
    norm_num
  have hold : (compute_local_summary 0 none [sampleRec10] 0).session_oldest = some 7 := by
    rw [cls_oldest_eq 0 none [sampleRec10] 0]
    simp [List.filterMap_cons, hq, ominStep]
  exact ⟨hold, (claim10_session_invariants 0 0 none [sampleRec10]).2.2 7 hold⟩

end UsageDash
